import Mathlib

set_option autoImplicit false

/-!
# Verification of the mcp-bash-server OAuth core

A shallow embedding of the repository's authorization-server state machine
and HTTP router wiring, with theorems settling the frozen claims.

The repository's `src/main.rs` contains the router construction, the
development-mode switch and the middleware layering; these are embedded
directly from that file.  The bodies of the OAuth handlers
(`oauth_authorize`, `oauth_approve`, `oauth_token`, `oauth_register`,
`validate_token_middleware`) and of the config loader live in
`src/common/oauth.rs` / `src/common/config.rs`, which are not part of the
provided sources; where a claim depends on them they are modelled from the
specification, as marked on each definition.
-/

namespace McpBash

/-! ## Bytes, SHA-256 and BASE64URL

The PKCE check of the token endpoint recomputes
`BASE64URL(SHA256(code_verifier))`.  We embed SHA-256 (FIPS 180-4) over
byte lists, with 32-bit words represented as `Nat` reduced mod `2^32`,
and the padding-free URL-safe base64 alphabet of RFC 4648 §5 / RFC 7636. -/

/-- Reduce a natural number to a 32-bit word. -/
def w32 (x : Nat) : Nat := x % 4294967296

/-- Right-rotation of a 32-bit word by `n` places. -/
def rotr32 (n x : Nat) : Nat := w32 ((x >>> n) + (x % 2 ^ n) * 2 ^ (32 - n))

/-- Logical right shift of a 32-bit word. -/
def shr32 (n x : Nat) : Nat := x >>> n

/-- Bitwise complement of a 32-bit word. -/
def not32 (x : Nat) : Nat := Nat.xor x 4294967295

/-- SHA-256 `Ch` function. -/
def sha2Ch (x y z : Nat) : Nat := Nat.xor (Nat.land x y) (Nat.land (not32 x) z)

/-- SHA-256 `Maj` function. -/
def sha2Maj (x y z : Nat) : Nat :=
  Nat.xor (Nat.xor (Nat.land x y) (Nat.land x z)) (Nat.land y z)

/-- SHA-256 big sigma-0. -/
def bigSigma0 (x : Nat) : Nat := Nat.xor (Nat.xor (rotr32 2 x) (rotr32 13 x)) (rotr32 22 x)

/-- SHA-256 big sigma-1. -/
def bigSigma1 (x : Nat) : Nat := Nat.xor (Nat.xor (rotr32 6 x) (rotr32 11 x)) (rotr32 25 x)

/-- SHA-256 small sigma-0. -/
def smallSigma0 (x : Nat) : Nat := Nat.xor (Nat.xor (rotr32 7 x) (rotr32 18 x)) (shr32 3 x)

/-- SHA-256 small sigma-1. -/
def smallSigma1 (x : Nat) : Nat := Nat.xor (Nat.xor (rotr32 17 x) (rotr32 19 x)) (shr32 10 x)

/-- The 64 SHA-256 round constants (FIPS 180-4 §4.2.2), written in
decimal. -/
def sha2K : List Nat :=
  [1116352408, 1899447441, 3049323471, 3921009573, 961987163, 1508970993,
   2453635748, 2870763221, 3624381080, 310598401, 607225278, 1426881987,
   1925078388, 2162078206, 2614888103, 3248222580, 3835390401, 4022224774,
   264347078, 604807628, 770255983, 1249150122, 1555081692, 1996064986,
   2554220882, 2821834349, 2952996808, 3210313671, 3336571891, 3584528711,
   113926993, 338241895, 666307205, 773529912, 1294757372, 1396182291,
   1695183700, 1986661051, 2177026350, 2456956037, 2730485921, 2820302411,
   3259730800, 3345764771, 3516065817, 3600352804, 4094571909, 275423344,
   430227734, 506948616, 659060556, 883997877, 958139571, 1322822218,
   1537002063, 1747873779, 1955562222, 2024104815, 2227730452, 2361852424,
   2428436474, 2756734187, 3204031479, 3329325298]

/-- The SHA-256 initial hash value (FIPS 180-4 §5.3.3), written in
decimal. -/
def sha2H0 : List Nat :=
  [1779033703, 3144134277, 1013904242, 2773480762,
   1359893119, 2600822924, 528734635, 1541459225]

/-- FIPS 180-4 padding: append `0x80`, zero bytes to 56 mod 64, then the
bit length as an 8-byte big-endian integer. -/
def sha2Pad (msg : List Nat) : List Nat :=
  let len := msg.length
  let zeros := (64 + 56 - (len + 1) % 64) % 64
  let bitLen := len * 8
  msg ++ [0x80] ++ List.replicate zeros 0 ++
    [bitLen >>> 56 % 256, bitLen >>> 48 % 256, bitLen >>> 40 % 256, bitLen >>> 32 % 256,
     bitLen >>> 24 % 256, bitLen >>> 16 % 256, bitLen >>> 8 % 256, bitLen % 256]

/-- Group a byte list into big-endian 32-bit words. -/
def bytesToWords : List Nat → List Nat
  | b0 :: b1 :: b2 :: b3 :: rest =>
      (b0 * 2 ^ 24 + b1 * 2 ^ 16 + b2 * 2 ^ 8 + b3) :: bytesToWords rest
  | _ => []

/-- Split a list into 64-element chunks; `fuel` bounds the recursion and
is instantiated with the list length. -/
def chunks64Aux {α : Type} : Nat → List α → List (List α)
  | 0, _ => []
  | _, [] => []
  | fuel + 1, l => l.take 64 :: chunks64Aux fuel (l.drop 64)

/-- Split a list into 64-element chunks. -/
def chunks64 {α : Type} (l : List α) : List (List α) :=
  chunks64Aux l.length l

/-- Extend a 16-word block to the 64-word SHA-256 message schedule. -/
def msgSchedule (block : List Nat) : List Nat :=
  (List.range 64).foldl
    (fun ws t =>
      if t < 16 then ws ++ [block.getD t 0]
      else ws ++ [w32 (smallSigma1 (ws.getD (t - 2) 0) + ws.getD (t - 7) 0 +
                        smallSigma0 (ws.getD (t - 15) 0) + ws.getD (t - 16) 0)]) []

/-- One SHA-256 compression round on the working variables `[a,b,c,d,e,f,g,h]`. -/
def compressRound (st : List Nat) (k w : Nat) : List Nat :=
  match st with
  | [a, b, c, d, e, f, g, h] =>
      let t1 := w32 (h + bigSigma1 e + sha2Ch e f g + k + w)
      let t2 := w32 (bigSigma0 a + sha2Maj a b c)
      [w32 (t1 + t2), a, b, c, w32 (d + t1), e, f, g]
  | other => other

/-- Process one 512-bit block, updating the intermediate hash. -/
def processBlock (h : List Nat) (block : List Nat) : List Nat :=
  let ws := msgSchedule (bytesToWords block)
  let fin := (sha2K.zip ws).foldl (fun st p => compressRound st p.1 p.2) h
  (h.zip fin).map (fun p => w32 (p.1 + p.2))

/-- Big-endian bytes of a 32-bit word. -/
def wordToBytes (w : Nat) : List Nat :=
  [w >>> 24 % 256, w >>> 16 % 256, w >>> 8 % 256, w % 256]

/-- SHA-256 of a byte list, as a 32-byte list. -/
def sha256 (msg : List Nat) : List Nat :=
  ((chunks64 (sha2Pad msg)).foldl processBlock sha2H0).flatMap wordToBytes

/-- The URL-safe base64 alphabet (RFC 4648 §5). -/
def b64urlChar (n : Nat) : Char :=
  "ABCDEFGHIJKLMNOPQRSTUVWXYZabcdefghijklmnopqrstuvwxyz0123456789-_".toList.getD n 'A'

/-- Padding-free URL-safe base64 encoding of a byte list (RFC 7636 §3). -/
def base64urlEncode : List Nat → List Char
  | b0 :: b1 :: b2 :: rest =>
      b64urlChar (b0 / 4) :: b64urlChar (b0 % 4 * 16 + b1 / 16) ::
      b64urlChar (b1 % 16 * 4 + b2 / 64) :: b64urlChar (b2 % 64) :: base64urlEncode rest
  | [b0, b1] => [b64urlChar (b0 / 4), b64urlChar (b0 % 4 * 16 + b1 / 16), b64urlChar (b1 % 16 * 4)]
  | [b0] => [b64urlChar (b0 / 4), b64urlChar (b0 % 4 * 16)]
  | [] => []

/-- UTF-8 encoding of one character as bytes (RFC 3629), matching
`String.utf8EncodeChar`. -/
def charUtf8 (c : Char) : List Nat :=
  let n := c.toNat
  if n < 0x80 then [n]
  else if n < 0x800 then [0xC0 + n / 64, 0x80 + n % 64]
  else if n < 0x10000 then [0xE0 + n / 4096, 0x80 + n / 64 % 64, 0x80 + n % 64]
  else [0xF0 + n / 262144, 0x80 + n / 4096 % 64, 0x80 + n / 64 % 64, 0x80 + n % 64]

/-- The UTF-8 bytes of a string. -/
def strBytes (s : String) : List Nat := s.data.flatMap charUtf8

/-- `BASE64URL(SHA256(code_verifier))` — the S256 PKCE challenge derivation
(RFC 7636 §4.2) recomputed by the token endpoint. -/
def s256Challenge (verifier : String) : String :=
  String.mk (base64urlEncode (sha256 (strBytes verifier)))

/-! ## Data model (spec §3)

`common/oauth.rs` is not among the provided sources; the entity records and
the `McpOAuthStore` are modelled from the specification's data model. -/

/-- Modelled from the spec: the `Client` record of `common/oauth.rs`
(spec §3) — `client_id`, optional `client_secret`, registered redirect URIs. -/
structure Client where
  client_id : String
  client_secret : Option String
  redirect_uris : List String
  deriving Repr, DecidableEq

/-- Modelled from the spec: a pending `AuthorizationRequest` (spec §3). -/
structure AuthorizationRequest where
  state : String
  client_id : String
  redirect_uri : String
  code_challenge : String
  code_challenge_method : String
  scope : String
  deriving Repr, DecidableEq

/-- Modelled from the spec: an issued `AuthorizationCode` (spec §3), with
lazy expiry timestamp and the single-use `consumed` flag. -/
structure AuthorizationCode where
  code : String
  client_id : String
  redirect_uri : String
  code_challenge : String
  code_challenge_method : String
  scope : String
  expires_at : Nat
  consumed : Bool
  deriving Repr, DecidableEq

/-- Modelled from the spec: an issued bearer `AccessToken` (spec §3). -/
structure AccessToken where
  token : String
  client_id : String
  scope : String
  expires_at : Nat
  deriving Repr, DecidableEq

/-- Modelled from the spec: `McpOAuthStore` of `common/oauth.rs` — the
process-wide store owning all four entity kinds (spec §3), with pending
requests keyed by an opaque request id. -/
structure McpOAuthStore where
  clients : List Client
  requests : List (String × AuthorizationRequest)
  codes : List AuthorizationCode
  tokens : List AccessToken
  deriving Repr, DecidableEq

/-- Look up a registered client by id. -/
def lookupClient (st : McpOAuthStore) (cid : String) : Option Client :=
  st.clients.find? (fun c => c.client_id == cid)

/-- Look up a pending authorization request by its opaque request id. -/
def lookupRequest (st : McpOAuthStore) (rid : String) : Option AuthorizationRequest :=
  (st.requests.find? (fun p => p.1 == rid)).map (·.2)

/-- Look up an issued authorization code by its value. -/
def lookupCode (st : McpOAuthStore) (code : String) : Option AuthorizationCode :=
  st.codes.find? (fun c => c.code == code)

/-- Look up an issued access token by its value. -/
def lookupToken (st : McpOAuthStore) (tok : String) : Option AccessToken :=
  st.tokens.find? (fun t => t.token == tok)

/-- Equality of `Except` results is decidable, so concrete operation
outcomes can be evaluated inside proofs. -/
instance exceptDecEq {ε α : Type} [DecidableEq ε] [DecidableEq α] :
    DecidableEq (Except ε α)
  | .ok x, .ok y =>
    if h : x = y then .isTrue (by rw [h]) else .isFalse (fun hh => h (by injection hh))
  | .ok _, .error _ => .isFalse (fun hh => Except.noConfusion hh)
  | .error _, .ok _ => .isFalse (fun hh => Except.noConfusion hh)
  | .error e, .error f =>
    if h : e = f then .isTrue (by rw [h]) else .isFalse (fun hh => h (by injection hh))

/-- The error taxonomy of spec §7. -/
inductive OAuthError where
  | InvalidClient
  | InvalidRedirectURI
  | UnsupportedChallengeMethod
  | UnknownRequest
  | InvalidGrant
  | Unauthorized
  deriving Repr, DecidableEq

/-! ## Operations (spec §4) -/

/-- Modelled from the spec: `oauth_authorize` / `BeginAuthorization`
(spec §4.2).  Validates that `client_id` exists (`InvalidClient`), that
`redirect_uri` is exactly one of the client's registered URIs
(`InvalidRedirectURI`), and that `code_challenge` is non-empty with method
`S256` (`UnsupportedChallengeMethod`); on success stores a pending
`AuthorizationRequest` under the server-generated opaque `rid`. -/
def beginAuthorization (st : McpOAuthStore) (cid redirect_uri state code_challenge
    code_challenge_method scope rid : String) : Except OAuthError McpOAuthStore :=
  match lookupClient st cid with
  | none => .error .InvalidClient
  | some c =>
    if c.redirect_uris.contains redirect_uri then
      if code_challenge != "" && code_challenge_method == "S256" then
        .ok { st with requests :=
          (rid, ⟨state, cid, redirect_uri, code_challenge, code_challenge_method, scope⟩)
            :: st.requests }
      else .error .UnsupportedChallengeMethod
    else .error .InvalidRedirectURI

/-- A user consent decision (spec §4.3). -/
inductive Decision where
  | allow
  | deny
  deriving Repr, DecidableEq

/-- A redirect back to the client: target URI plus query parameters. -/
structure RedirectTarget where
  uri : String
  params : List (String × String)
  deriving Repr, DecidableEq

/-- Modelled from the spec: `oauth_approve` / `Approve` (spec §4.3).
Looks up the pending request (`UnknownRequest` if absent), deletes it on
either decision; on `deny` redirects with `error=access_denied` and mints
no code; on `allow` mints one `AuthorizationCode` bound to the request's
parameters (value `newCode`, expiring at `now + codeLifetime`) and
redirects with `code=<code>&state=<state>`. -/
def approve (st : McpOAuthStore) (rid : String) (decision : Decision) (now : Nat)
    (newCode : String) (codeLifetime : Nat) :
    Except OAuthError (RedirectTarget × McpOAuthStore) :=
  match lookupRequest st rid with
  | none => .error .UnknownRequest
  | some req =>
    let st' := { st with requests := st.requests.filter (fun p => p.1 != rid) }
    match decision with
    | .deny =>
      .ok (⟨req.redirect_uri, [("error", "access_denied"), ("state", req.state)]⟩, st')
    | .allow =>
      let ac : AuthorizationCode :=
        ⟨newCode, req.client_id, req.redirect_uri, req.code_challenge,
         req.code_challenge_method, req.scope, now + codeLifetime, false⟩
      .ok (⟨req.redirect_uri, [("code", newCode), ("state", req.state)]⟩,
           { st' with codes := ac :: st'.codes })

/-- Client authentication for the token endpoint (spec §4.4 step 2): a
public client needs no secret; a confidential client's stored secret must
be presented. -/
def clientSecretOk (st : McpOAuthStore) (cid : String) (given : Option String) : Bool :=
  match lookupClient st cid with
  | none => false
  | some c =>
    match c.client_secret with
    | none => true
    | some s => given == some s

/-- Modelled from the spec: `oauth_token` / `Exchange` (spec §4.4).
Follows the algorithm's steps in order: (1) code absent, expired or
already consumed → `InvalidGrant`; (2) client mismatch or failed secret →
`InvalidClient`; (3) redirect mismatch → `InvalidGrant`; (4) PKCE check
`BASE64URL(SHA256(code_verifier)) == code_challenge`, `InvalidGrant` on
mismatch; (5) mark the code consumed; (6) mint an access token `newToken`
expiring at `now + tokenLifetime`. -/
def exchange (st : McpOAuthStore) (cid : String) (client_secret : Option String)
    (code redirect_uri code_verifier : String) (now : Nat)
    (newToken : String) (tokenLifetime : Nat) :
    Except OAuthError (AccessToken × McpOAuthStore) :=
  match lookupCode st code with
  | none => .error .InvalidGrant
  | some ac =>
    if ac.consumed || decide (ac.expires_at ≤ now) then .error .InvalidGrant
    else if !(cid == ac.client_id && clientSecretOk st cid client_secret) then
      .error .InvalidClient
    else if redirect_uri != ac.redirect_uri then .error .InvalidGrant
    else if s256Challenge code_verifier != ac.code_challenge then .error .InvalidGrant
    else
      let tok : AccessToken := ⟨newToken, ac.client_id, ac.scope, now + tokenLifetime⟩
      .ok (tok,
        { st with
          codes := st.codes.map (fun c => if c.code == code then { c with consumed := true } else c),
          tokens := tok :: st.tokens })

/-- The decision of the protected-resource gate. -/
inductive GateDecision where
  | granted
  | unauthorized
  deriving Repr, DecidableEq

/-- Modelled from the spec: `validate_token_middleware` (spec §4.5).
Extracts the bearer credential; absent → unauthorized; token unknown or
`now >= expires_at` → unauthorized; otherwise the request is admitted
unmodified.  The response is uniformly `Unauthorized` — it carries no
information about which check failed. -/
def validateToken (st : McpOAuthStore) (bearer : Option String) (now : Nat) : GateDecision :=
  match bearer with
  | none => .unauthorized
  | some b =>
    match lookupToken st b with
    | none => .unauthorized
    | some tok => if tok.expires_at ≤ now then .unauthorized else .granted

/-! ## Router wiring (src/main.rs)

The following definitions embed the router construction of `main.rs`
lines 102–165: the environment-mode default, the dev-mode switch around
`validate_token_middleware`, the CORS-layered OAuth sub-router, and the
merged application router.  A router is a list of routes; `.layer(...)`
applies to every route already in the router, exactly as in axum. -/

/-- HTTP methods appearing in `main.rs`; `ANY` stands for a nested
service, which axum's `nest_service` dispatches regardless of method. -/
inductive Method where
  | GET
  | POST
  | OPTIONS
  | ANY
  deriving Repr, DecidableEq

/-- The handlers wired in `main.rs`. -/
inductive Handler where
  | index
  | oauthAuthorize
  | oauthApprove
  | oauthToken
  | oauthRegister
  | oauthAuthorizationServer
  | mcpService
  deriving Repr, DecidableEq

/-- One route of the axum router: method, path, handler, whether the
permissive CORS layer covers it, whether `validate_token_middleware`
wraps it, and whether it is a nested service (prefix-matched path). -/
structure Route where
  method : Method
  path : String
  handler : Handler
  cors : Bool
  gated : Bool
  nested : Bool
  deriving Repr, DecidableEq

/-- A plain route as produced by `.route(path, method(handler))`. -/
def mkRoute (m : Method) (p : String) (h : Handler) : Route :=
  ⟨m, p, h, false, false, false⟩

/-- `.layer(cors_layer)`: the CORS layer covers every route of the router
it is applied to (`main.rs` line 154). -/
def withCors (rs : List Route) : List Route :=
  rs.map (fun r => { r with cors := true })

/-- `.layer(middleware::from_fn_with_state(oauth_store, validate_token_middleware))`:
the token gate wraps every route of the router it is applied to
(`main.rs` lines 134–137). -/
def withGate (rs : List Route) : List Route :=
  rs.map (fun r => { r with gated := true })

/-- `main.rs` line 128: `Router::new().nest_service("/mcp", service)`. -/
def server_router : List Route :=
  [⟨.ANY, "/mcp", .mcpService, false, false, true⟩]

/-- `main.rs` lines 131–138: the gate is layered onto the `/mcp` router
only when not in development mode. -/
def protected_server_router (is_dev : Bool) : List Route :=
  if is_dev then server_router else withGate server_router

/-- `main.rs` lines 147–155: the OAuth sub-router with the
`/.well-known/oauth-authorization-server`, `/token` and `/register`
routes — each serving its primary method and `OPTIONS` with the same
handler — under the permissive CORS layer. -/
def oauth_server_router : List Route :=
  withCors
    [mkRoute .GET "/.well-known/oauth-authorization-server" .oauthAuthorizationServer,
     mkRoute .OPTIONS "/.well-known/oauth-authorization-server" .oauthAuthorizationServer,
     mkRoute .POST "/token" .oauthToken,
     mkRoute .OPTIONS "/token" .oauthToken,
     mkRoute .POST "/register" .oauthRegister,
     mkRoute .OPTIONS "/register" .oauthRegister]

/-- `main.rs` lines 158–165: the application router — `/`, `/authorize`,
`/approve`, merged with the OAuth sub-router and the (possibly gated)
`/mcp` service.  The outer `log_request` layer logs and then calls
`next.run(request)` unconditionally (`main.rs` lines 48–85), so it does
not alter dispatch and is omitted. -/
def app (is_dev : Bool) : List Route :=
  [mkRoute .GET "/" .index,
   mkRoute .GET "/authorize" .oauthAuthorize,
   mkRoute .POST "/approve" .oauthApprove]
  ++ oauth_server_router
  ++ protected_server_router is_dev

/-- `main.rs` lines 102–109: the environment mode read from the config
file, defaulting to `"production"` when none is configured. -/
def env_mode (cfgEnv : Option String) : String :=
  cfgEnv.getD "production"

/-- `main.rs` line 109: `let is_dev = env_mode == "development";`. -/
def is_dev (cfgEnv : Option String) : Bool :=
  env_mode cfgEnv == "development"

/-- Does a route match a request method and path?  Nested services match
their path and everything below it; plain routes match exactly. -/
def routeMatches (r : Route) (m : Method) (path : String) : Bool :=
  if r.nested then
    path == r.path || (r.path ++ "/").isPrefixOf path
  else
    r.path == path && r.method == m

/-- The externally observable outcome of dispatching one request. -/
inductive Outcome where
  | unauthorized
  | handled (h : Handler)
  | notFound
  deriving Repr, DecidableEq

/-- Dispatch a request through the router: find the matching route; if it
is wrapped by `validate_token_middleware`, the gate runs first and the
handler is reached only when the gate admits. -/
def dispatch (rs : List Route) (st : McpOAuthStore) (m : Method) (path : String)
    (bearer : Option String) (now : Nat) : Outcome :=
  match rs.find? (fun r => routeMatches r m path) with
  | none => .notFound
  | some r =>
    if r.gated then
      match validateToken st bearer now with
      | .unauthorized => .unauthorized
      | .granted => .handled r.handler
    else .handled r.handler

/-- Is `validate_token_middleware` layered in front of the `/mcp` tool
service anywhere in the router? -/
def gateApplied (rs : List Route) : Bool :=
  rs.any (fun r => r.handler == Handler.mcpService && r.gated)

/-- Does the router bind a plain route with this method and path? -/
def hasRoute (rs : List Route) (m : Method) (p : String) : Bool :=
  rs.any (fun r => r.method == m && r.path == p)

/-- A store with one unexpired access token, used to instantiate theorems
with hypotheses at a concrete input. -/
def witnessStore : McpOAuthStore :=
  ⟨[⟨"client-1", none, ["https://app.example/cb"]⟩], [], [],
   [⟨"tok-1", "client-1", "mcp", 100⟩]⟩

/-- C1: the token-validation gate on `/mcp` is bypassed iff the configured
environment mode is exactly `"development"`; an absent mode defaults to
`"production"`, where the gate is applied. -/
theorem dev_bypass_iff_development (cfgEnv : Option String) :
    (gateApplied (app (is_dev cfgEnv)) = false ↔ env_mode cfgEnv = "development") ∧
    env_mode none = "production" ∧
    gateApplied (app (is_dev none)) = true := by
  have hkey : ∀ d : Bool, gateApplied (app d) = !d := by decide
  refine ⟨?_, rfl, by decide⟩
  rw [hkey]
  cases hb : is_dev cfgEnv with
  | true =>
      have hdev : env_mode cfgEnv = "development" := by
        have hb' := hb
        simp only [is_dev, beq_iff_eq] at hb'
        exact hb'
      simp [hdev]
  | false =>
      have hdev : ¬ env_mode cfgEnv = "development" := by
        intro h
        rw [is_dev, h] at hb
        simp at hb
      simp [hdev]

/-- Every route of the production router that reaches the tool service is
wrapped by the token gate. -/
theorem prod_mcp_routes_gated :
    ∀ r ∈ app false, r.handler = Handler.mcpService → r.gated = true := by
  decide

/-- C2: in non-development mode, a request whose dispatch reaches the
`/mcp` tool service was first admitted by `validate_token_middleware`;
no request reaches the tool service without the gate admitting it. -/
theorem mcp_service_only_after_gate (cfgEnv : Option String) (st : McpOAuthStore)
    (m : Method) (path : String) (bearer : Option String) (now : Nat)
    (hdev : is_dev cfgEnv = false)
    (hreach : dispatch (app (is_dev cfgEnv)) st m path bearer now =
      Outcome.handled Handler.mcpService) :
    validateToken st bearer now = GateDecision.granted := by
  rw [hdev] at hreach
  unfold dispatch at hreach
  cases hfind : (app false).find? (fun r => routeMatches r m path) with
  | none => rw [hfind] at hreach; exact absurd hreach (by simp)
  | some r =>
    rw [hfind] at hreach
    dsimp only at hreach
    have hmem : r ∈ app false := List.mem_of_find?_eq_some hfind
    by_cases hg : r.gated = true
    · rw [hg] at hreach
      simp only [if_true] at hreach
      cases hv : validateToken st bearer now with
      | granted => rfl
      | unauthorized => rw [hv] at hreach; exact absurd hreach (by simp)
    · have hg' : r.gated = false := by simpa using hg
      rw [hg'] at hreach
      simp only [Bool.false_eq_true, if_false, Outcome.handled.injEq] at hreach
      exact absurd (prod_mcp_routes_gated r hmem hreach) hg

/-- C2 witness: a concrete request to `/mcp` in production mode that
reaches the tool service, and the gate's admit decision for it. -/
theorem mcp_service_only_after_gate_witness :
    is_dev (some "production") = false ∧
    dispatch (app (is_dev (some "production"))) witnessStore .GET "/mcp" (some "tok-1") 0 =
      Outcome.handled Handler.mcpService ∧
    validateToken witnessStore (some "tok-1") 0 = GateDecision.granted :=
  ⟨by decide, by decide,
   mcp_service_only_after_gate (some "production") witnessStore .GET "/mcp" (some "tok-1") 0
     (by decide) (by decide)⟩

/-- C8: the application router binds exactly the specified paths — `/`,
`/authorize`, `/approve`, `/register`, `/token`, the discovery document
and the protected `/mcp` service — with the specified primary methods,
in every configuration. -/
theorem http_surface_exact (dev : Bool) :
    hasRoute (app dev) .GET "/authorize" = true ∧
    hasRoute (app dev) .POST "/approve" = true ∧
    hasRoute (app dev) .POST "/register" = true ∧
    hasRoute (app dev) .POST "/token" = true ∧
    hasRoute (app dev) .GET "/.well-known/oauth-authorization-server" = true ∧
    hasRoute (app dev) .GET "/" = true ∧
    (app dev).any (fun r => r.path == "/mcp" && r.handler == Handler.mcpService) = true ∧
    (app dev).all (fun r =>
      r.path == "/" || r.path == "/authorize" || r.path == "/approve" ||
      r.path == "/register" || r.path == "/token" ||
      r.path == "/.well-known/oauth-authorization-server" || r.path == "/mcp") = true := by
  cases dev <;> exact ⟨by decide, by decide, by decide, by decide, by decide, by decide,
    by decide, by decide⟩

/-- C9: the token gate is layered exactly onto the `/mcp` tool service
(and only outside development mode); every OAuth endpoint dispatches to
its handler with no bearer credential at all, in every configuration. -/
theorem gate_covers_only_mcp (dev : Bool) (st : McpOAuthStore) (now : Nat) :
    (app dev).all (fun r => r.gated == (r.handler == Handler.mcpService && !dev)) = true ∧
    dispatch (app dev) st .GET "/" none now = .handled .index ∧
    dispatch (app dev) st .GET "/authorize" none now = .handled .oauthAuthorize ∧
    dispatch (app dev) st .POST "/approve" none now = .handled .oauthApprove ∧
    dispatch (app dev) st .POST "/token" none now = .handled .oauthToken ∧
    dispatch (app dev) st .POST "/register" none now = .handled .oauthRegister ∧
    dispatch (app dev) st .GET "/.well-known/oauth-authorization-server" none now =
      .handled .oauthAuthorizationServer := by
  cases dev <;> exact ⟨by decide, rfl, rfl, rfl, rfl, rfl, rfl⟩

/-- C10: the permissive CORS layer covers exactly `/token`, `/register`
and the discovery document; each of the three also serves `OPTIONS` with
the same handler as its primary method; `/authorize` and `/approve` have
no CORS layer and no `OPTIONS` route. -/
theorem cors_and_options_exact (dev : Bool) :
    (app dev).all (fun r =>
      r.cors == (r.path == "/token" || r.path == "/register" ||
                 r.path == "/.well-known/oauth-authorization-server")) = true ∧
    (app dev).any (fun r => r.method == .OPTIONS && r.path == "/token" &&
      r.handler == Handler.oauthToken) = true ∧
    (app dev).any (fun r => r.method == .OPTIONS && r.path == "/register" &&
      r.handler == Handler.oauthRegister) = true ∧
    (app dev).any (fun r => r.method == .OPTIONS &&
      r.path == "/.well-known/oauth-authorization-server" &&
      r.handler == Handler.oauthAuthorizationServer) = true ∧
    (app dev).all (fun r =>
      !(r.method == .OPTIONS && (r.path == "/authorize" || r.path == "/approve"))) = true := by
  cases dev <;> exact ⟨by decide, by decide, by decide, by decide, by decide⟩

/-! ## Lemmas about store lookups -/

/-- Deleting every entry with a given key makes lookups of that key fail. -/
theorem find?_filter_key_none {α : Type} (l : List (String × α)) (k : String) :
    (l.filter (fun p => p.1 != k)).find? (fun p => p.1 == k) = none := by
  apply List.find?_eq_none.mpr
  intro x hx
  have h2 := (List.mem_filter.mp hx).2
  simp only [bne_iff_ne, ne_eq] at h2
  simp only [beq_iff_eq]
  exact h2

/-- Removing every code with a given value makes code lookups of it fail. -/
theorem find?_filter_code_none (l : List AuthorizationCode) (k : String) :
    (l.filter (fun c => c.code != k)).find? (fun c => c.code == k) = none := by
  apply List.find?_eq_none.mpr
  intro x hx
  have h2 := (List.mem_filter.mp hx).2
  simp only [bne_iff_ne, ne_eq] at h2
  simp only [beq_iff_eq]
  exact h2

/-- Removing every token with a given value makes token lookups of it fail. -/
theorem find?_filter_token_none (l : List AccessToken) (k : String) :
    (l.filter (fun t => t.token != k)).find? (fun t => t.token == k) = none := by
  apply List.find?_eq_none.mpr
  intro x hx
  have h2 := (List.mem_filter.mp hx).2
  simp only [bne_iff_ne, ne_eq] at h2
  simp only [beq_iff_eq]
  exact h2

/-- Marking the code with value `k` consumed turns up the marked record at
the next lookup of `k`. -/
theorem find?_mark_consumed (l : List AuthorizationCode) (k : String) (a : AuthorizationCode)
    (h : l.find? (fun c => c.code == k) = some a) :
    (l.map (fun c => if c.code == k then { c with consumed := true } else c)).find?
      (fun c => c.code == k) = some { a with consumed := true } := by
  induction l with
  | nil => simp at h
  | cons c l ih =>
    cases hc : c.code == k with
    | true =>
      simp only [List.find?_cons, hc] at h
      injection h with h
      subst h
      rw [List.map_cons, if_pos hc, List.find?_cons]
      dsimp only
      rw [hc]
    | false =>
      simp only [List.find?_cons, hc] at h
      have hneg : ¬ ((c.code == k) = true) := by simp [hc]
      rw [List.map_cons, if_neg hneg, List.find?_cons]
      rw [hc]
      exact ih h

/-! ## Claims about the token endpoint (spec §4.4) -/

/-- A store holding one registered client and one fresh authorization code
bound to the RFC 7636 example challenge, for instantiating theorems. -/
def witnessCodeStore : McpOAuthStore :=
  ⟨[⟨"client-1", none, ["https://app.example/cb"]⟩], [],
   [⟨"code-1", "client-1", "https://app.example/cb",
     "E9Melhoa2OwvFrEMTJguCHaoeK1t8URWbuGJSstw-cM", "S256", "mcp", 60, false⟩],
   []⟩

/-- C4: with a valid, unconsumed, unexpired code and matching client and
redirect URI, `Exchange` succeeds iff `BASE64URL(SHA256(code_verifier))`
equals the stored `code_challenge`, and any mismatch yields
`InvalidGrant`. -/
theorem exchange_pkce_iff (st : McpOAuthStore) (cid : String) (cs : Option String)
    (code ruri verifier : String) (now : Nat) (newTok : String) (lifetime : Nat)
    (ac : AuthorizationCode)
    (hlook : lookupCode st code = some ac)
    (hcons : ac.consumed = false)
    (hexp : now < ac.expires_at)
    (hcid : cid = ac.client_id)
    (hsec : clientSecretOk st cid cs = true)
    (hruri : ruri = ac.redirect_uri) :
    ((∃ res, exchange st cid cs code ruri verifier now newTok lifetime = .ok res) ↔
      s256Challenge verifier = ac.code_challenge) ∧
    (s256Challenge verifier ≠ ac.code_challenge →
      exchange st cid cs code ruri verifier now newTok lifetime = .error .InvalidGrant) := by
  subst hcid
  subst hruri
  unfold exchange
  rw [hlook]
  dsimp only
  rw [hcons]
  rw [decide_eq_false (Nat.not_le.mpr hexp)]
  simp only [Bool.or_self, Bool.false_eq_true, if_false]
  rw [hsec]
  simp only [beq_self_eq_true, Bool.and_self, Bool.true_and, Bool.not_true,
    Bool.false_eq_true, if_false, bne_self_eq_false]
  by_cases hpk : s256Challenge verifier = ac.code_challenge
  · have hb : (s256Challenge verifier != ac.code_challenge) = false := by
      simp [bne, hpk]
    rw [hb]
    simp only [Bool.false_eq_true, if_false]
    exact ⟨⟨fun _ => hpk, fun _ => ⟨_, rfl⟩⟩, fun hne => absurd hpk hne⟩
  · have hb : (s256Challenge verifier != ac.code_challenge) = true := bne_iff_ne.mpr hpk
    rw [hb]
    refine ⟨⟨fun hex => ?_, fun h => absurd h hpk⟩, fun _ => by simp⟩
    obtain ⟨res, hres⟩ := hex
    simp at hres

/-- C4 witness: the PKCE iff instantiated at the RFC 7636 example code. -/
theorem exchange_pkce_iff_witness :
    ((∃ res, exchange witnessCodeStore "client-1" none "code-1" "https://app.example/cb"
        "dBjftJeZ4CVP-mB92K27uhbUJU1p1r_wW1gFWFOEjXk" 0 "tok-new" 3600 = .ok res) ↔
      s256Challenge "dBjftJeZ4CVP-mB92K27uhbUJU1p1r_wW1gFWFOEjXk" =
        "E9Melhoa2OwvFrEMTJguCHaoeK1t8URWbuGJSstw-cM") ∧
    (s256Challenge "dBjftJeZ4CVP-mB92K27uhbUJU1p1r_wW1gFWFOEjXk" ≠
        "E9Melhoa2OwvFrEMTJguCHaoeK1t8URWbuGJSstw-cM" →
      exchange witnessCodeStore "client-1" none "code-1" "https://app.example/cb"
        "dBjftJeZ4CVP-mB92K27uhbUJU1p1r_wW1gFWFOEjXk" 0 "tok-new" 3600 =
        .error .InvalidGrant) :=
  exchange_pkce_iff witnessCodeStore "client-1" none "code-1" "https://app.example/cb"
    "dBjftJeZ4CVP-mB92K27uhbUJU1p1r_wW1gFWFOEjXk" 0 "tok-new" 3600
    ⟨"code-1", "client-1", "https://app.example/cb",
     "E9Melhoa2OwvFrEMTJguCHaoeK1t8URWbuGJSstw-cM", "S256", "mcp", 60, false⟩
    (by decide) rfl (by decide) rfl (by decide) rfl

/-- The store after the witness exchange: the code is consumed and exactly
one access token exists. -/
def witnessExchangedStore : McpOAuthStore :=
  ⟨[⟨"client-1", none, ["https://app.example/cb"]⟩], [],
   [⟨"code-1", "client-1", "https://app.example/cb",
     "E9Melhoa2OwvFrEMTJguCHaoeK1t8URWbuGJSstw-cM", "S256", "mcp", 60, true⟩],
   [⟨"tok-new", "client-1", "mcp", 3600⟩]⟩

/-- C3: an authorization code is redeemable exactly once — after a
successful `Exchange`, the store holds exactly one more access token, and
every subsequent `Exchange` presenting the same code (any client, secret,
redirect URI, verifier or time) fails with `InvalidGrant`; a failing
`Exchange` returns no store, so the token count for the transaction stays
at one. -/
theorem code_single_use (st : McpOAuthStore) (cid : String) (cs : Option String)
    (code ruri verifier : String) (now : Nat) (newTok : String) (lifetime : Nat)
    (tok : AccessToken) (st' : McpOAuthStore)
    (hok : exchange st cid cs code ruri verifier now newTok lifetime = .ok (tok, st')) :
    st'.tokens.length = st.tokens.length + 1 ∧
    ∀ (cid2 : String) (cs2 : Option String) (ruri2 verifier2 : String) (now2 : Nat)
      (newTok2 : String) (lifetime2 : Nat),
      exchange st' cid2 cs2 code ruri2 verifier2 now2 newTok2 lifetime2 =
        .error .InvalidGrant := by
  unfold exchange at hok
  cases hlook : lookupCode st code with
  | none => rw [hlook] at hok; exact absurd hok (by simp)
  | some ac =>
    rw [hlook] at hok
    dsimp only at hok
    by_cases h1 : (ac.consumed || decide (ac.expires_at ≤ now)) = true
    · rw [if_pos h1] at hok; exact absurd hok (by simp)
    · rw [if_neg h1] at hok
      by_cases h2 : (!(cid == ac.client_id && clientSecretOk st cid cs)) = true
      · rw [if_pos h2] at hok; exact absurd hok (by simp)
      · rw [if_neg h2] at hok
        by_cases h3 : (ruri != ac.redirect_uri) = true
        · rw [if_pos h3] at hok; exact absurd hok (by simp)
        · rw [if_neg h3] at hok
          by_cases h4 : (s256Challenge verifier != ac.code_challenge) = true
          · rw [if_pos h4] at hok; exact absurd hok (by simp)
          · rw [if_neg h4] at hok
            simp only [Except.ok.injEq, Prod.mk.injEq] at hok
            obtain ⟨htok, hst⟩ := hok
            subst hst
            refine ⟨by simp, ?_⟩
            intro cid2 cs2 ruri2 verifier2 now2 newTok2 lifetime2
            have hl2 : lookupCode
                { st with
                  codes := st.codes.map
                    (fun c => if c.code == code then { c with consumed := true } else c),
                  tokens := ⟨newTok, ac.client_id, ac.scope, now + lifetime⟩ :: st.tokens }
                code = some { ac with consumed := true } := by
              unfold lookupCode at hlook ⊢
              exact find?_mark_consumed st.codes code ac hlook
            unfold exchange
            rw [hl2]
            simp

/-- C3 witness: the single-use property instantiated at a concrete
successful exchange of the RFC 7636 example code. -/
theorem code_single_use_witness :
    witnessExchangedStore.tokens.length = witnessCodeStore.tokens.length + 1 ∧
    ∀ (cid2 : String) (cs2 : Option String) (ruri2 verifier2 : String) (now2 : Nat)
      (newTok2 : String) (lifetime2 : Nat),
      exchange witnessExchangedStore cid2 cs2 "code-1" ruri2 verifier2 now2 newTok2 lifetime2 =
        .error .InvalidGrant :=
  code_single_use witnessCodeStore "client-1" none "code-1" "https://app.example/cb"
    "dBjftJeZ4CVP-mB92K27uhbUJU1p1r_wW1gFWFOEjXk" 0 "tok-new" 3600
    ⟨"tok-new", "client-1", "mcp", 3600⟩ witnessExchangedStore (by decide)

/-! ## Claims about the authorization and approval endpoints -/

/-- C6: for a registered client, `BeginAuthorization` with a redirect URI
outside the client's registered set fails with `InvalidRedirectURI`; with
a redirect URI exactly equal to a registered one, a non-empty challenge
and method `S256`, it succeeds and stores the pending
`AuthorizationRequest` under the request id. -/
theorem begin_authorization_redirect_uri (st : McpOAuthStore)
    (cid ruri state challenge scope rid : String) (c : Client)
    (hc : lookupClient st cid = some c) :
    (c.redirect_uris.contains ruri = false →
      beginAuthorization st cid ruri state challenge "S256" scope rid =
        .error .InvalidRedirectURI) ∧
    (c.redirect_uris.contains ruri = true → challenge ≠ "" →
      beginAuthorization st cid ruri state challenge "S256" scope rid =
        .ok { st with requests :=
          (rid, ⟨state, cid, ruri, challenge, "S256", scope⟩) :: st.requests } ∧
      lookupRequest { st with requests :=
          (rid, ⟨state, cid, ruri, challenge, "S256", scope⟩) :: st.requests } rid =
        some ⟨state, cid, ruri, challenge, "S256", scope⟩) := by
  unfold beginAuthorization
  rw [hc]
  dsimp only
  constructor
  · intro hm
    rw [hm]
    simp
  · intro hm hch
    rw [hm]
    have hcond : (challenge != "" && ("S256" : String) == "S256") = true := by
      simp [hch]
    rw [hcond]
    refine ⟨by simp, ?_⟩
    unfold lookupRequest
    simp [List.find?_cons]

/-- C6 witness: the redirect-URI membership check at a concrete client
with one registered URI. -/
theorem begin_authorization_redirect_uri_witness :
    ((⟨"client-1", none, ["https://app.example/cb"]⟩ : Client).redirect_uris.contains
        "https://evil.example/cb" = false →
      beginAuthorization witnessStore "client-1" "https://evil.example/cb" "xyz"
        "E9Melhoa2OwvFrEMTJguCHaoeK1t8URWbuGJSstw-cM" "S256" "mcp" "req-1" =
        .error .InvalidRedirectURI) ∧
    ((⟨"client-1", none, ["https://app.example/cb"]⟩ : Client).redirect_uris.contains
        "https://evil.example/cb" = true →
      "E9Melhoa2OwvFrEMTJguCHaoeK1t8URWbuGJSstw-cM" ≠ "" →
      beginAuthorization witnessStore "client-1" "https://evil.example/cb" "xyz"
        "E9Melhoa2OwvFrEMTJguCHaoeK1t8URWbuGJSstw-cM" "S256" "mcp" "req-1" =
        .ok { witnessStore with requests := ("req-1",
          ⟨"xyz", "client-1", "https://evil.example/cb",
           "E9Melhoa2OwvFrEMTJguCHaoeK1t8URWbuGJSstw-cM", "S256", "mcp"⟩)
            :: witnessStore.requests } ∧
      lookupRequest { witnessStore with requests := ("req-1",
          ⟨"xyz", "client-1", "https://evil.example/cb",
           "E9Melhoa2OwvFrEMTJguCHaoeK1t8URWbuGJSstw-cM", "S256", "mcp"⟩)
            :: witnessStore.requests } "req-1" =
        some ⟨"xyz", "client-1", "https://evil.example/cb",
              "E9Melhoa2OwvFrEMTJguCHaoeK1t8URWbuGJSstw-cM", "S256", "mcp"⟩) :=
  begin_authorization_redirect_uri witnessStore "client-1" "https://evil.example/cb" "xyz"
    "E9Melhoa2OwvFrEMTJguCHaoeK1t8URWbuGJSstw-cM" "mcp" "req-1"
    ⟨"client-1", none, ["https://app.example/cb"]⟩ (by decide)

/-- Deleting a pending request from the store makes its lookup fail. -/
theorem lookupRequest_after_delete (st : McpOAuthStore) (rid : String) :
    lookupRequest { st with requests := st.requests.filter (fun p => p.1 != rid) } rid =
      none := by
  unfold lookupRequest
  dsimp only
  rw [find?_filter_key_none]
  rfl

/-- `Approve` fails with `UnknownRequest` whenever no pending request is
stored under the request id. -/
theorem approve_unknown_of_none (st2 : McpOAuthStore) (rid : String)
    (h : lookupRequest st2 rid = none) (d : Decision) (now2 : Nat) (nc2 : String)
    (lt2 : Nat) :
    approve st2 rid d now2 nc2 lt2 = .error .UnknownRequest := by
  unfold approve
  rw [h]

/-- C7: `Approve` consumes the pending request on every decision — `allow`
mints exactly one code bound to the request's parameters and deletes the
request, `deny` deletes it without minting; afterwards the request id is
gone and any second `Approve` fails with `UnknownRequest`, so one request
id never produces two codes. -/
theorem approve_consumes_request (st : McpOAuthStore) (rid : String) (now : Nat)
    (newCode : String) (lifetime : Nat) (req : AuthorizationRequest)
    (hreq : lookupRequest st rid = some req) :
    (∃ rt st', approve st rid .allow now newCode lifetime = .ok (rt, st') ∧
      st'.codes = (⟨newCode, req.client_id, req.redirect_uri, req.code_challenge,
        req.code_challenge_method, req.scope, now + lifetime, false⟩ : AuthorizationCode)
          :: st.codes ∧
      lookupRequest st' rid = none ∧
      ∀ (d : Decision) (now2 : Nat) (nc2 : String) (lt2 : Nat),
        approve st' rid d now2 nc2 lt2 = .error .UnknownRequest) ∧
    (∃ rt st', approve st rid .deny now newCode lifetime = .ok (rt, st') ∧
      st'.codes = st.codes ∧
      lookupRequest st' rid = none ∧
      ∀ (d : Decision) (now2 : Nat) (nc2 : String) (lt2 : Nat),
        approve st' rid d now2 nc2 lt2 = .error .UnknownRequest) := by
  have hallowNone : lookupRequest
      { st with requests := st.requests.filter (fun p => p.1 != rid),
                codes := (⟨newCode, req.client_id, req.redirect_uri, req.code_challenge,
                  req.code_challenge_method, req.scope, now + lifetime, false⟩ :
                    AuthorizationCode) :: st.codes } rid = none :=
    lookupRequest_after_delete
      { st with codes := (⟨newCode, req.client_id, req.redirect_uri, req.code_challenge,
          req.code_challenge_method, req.scope, now + lifetime, false⟩ :
            AuthorizationCode) :: st.codes } rid
  have hdenyNone : lookupRequest
      { st with requests := st.requests.filter (fun p => p.1 != rid) } rid = none :=
    lookupRequest_after_delete st rid
  constructor
  · refine ⟨⟨req.redirect_uri, [("code", newCode), ("state", req.state)]⟩,
      { st with requests := st.requests.filter (fun p => p.1 != rid),
                codes := (⟨newCode, req.client_id, req.redirect_uri, req.code_challenge,
                  req.code_challenge_method, req.scope, now + lifetime, false⟩ :
                    AuthorizationCode) :: st.codes },
      ?_, rfl, hallowNone, fun d now2 nc2 lt2 =>
        approve_unknown_of_none _ rid hallowNone d now2 nc2 lt2⟩
    unfold approve
    rw [hreq]
  · refine ⟨⟨req.redirect_uri, [("error", "access_denied"), ("state", req.state)]⟩,
      { st with requests := st.requests.filter (fun p => p.1 != rid) },
      ?_, rfl, hdenyNone, fun d now2 nc2 lt2 =>
        approve_unknown_of_none _ rid hdenyNone d now2 nc2 lt2⟩
    unfold approve
    rw [hreq]

/-- A store with one pending authorization request, for instantiating the
approval theorem. -/
def witnessReqStore : McpOAuthStore :=
  ⟨[⟨"client-1", none, ["https://app.example/cb"]⟩],
   [("req-1", ⟨"xyz", "client-1", "https://app.example/cb",
     "E9Melhoa2OwvFrEMTJguCHaoeK1t8URWbuGJSstw-cM", "S256", "mcp"⟩)],
   [], []⟩

/-- C7 witness: consuming the concrete pending request `req-1`. -/
theorem approve_consumes_request_witness :
    (∃ rt st', approve witnessReqStore "req-1" .allow 0 "code-7" 60 = .ok (rt, st') ∧
      st'.codes = (⟨"code-7", "client-1", "https://app.example/cb",
        "E9Melhoa2OwvFrEMTJguCHaoeK1t8URWbuGJSstw-cM", "S256", "mcp", 0 + 60, false⟩ :
          AuthorizationCode) :: witnessReqStore.codes ∧
      lookupRequest st' "req-1" = none ∧
      ∀ (d : Decision) (now2 : Nat) (nc2 : String) (lt2 : Nat),
        approve st' "req-1" d now2 nc2 lt2 = .error .UnknownRequest) ∧
    (∃ rt st', approve witnessReqStore "req-1" .deny 0 "code-7" 60 = .ok (rt, st') ∧
      st'.codes = witnessReqStore.codes ∧
      lookupRequest st' "req-1" = none ∧
      ∀ (d : Decision) (now2 : Nat) (nc2 : String) (lt2 : Nat),
        approve st' "req-1" d now2 nc2 lt2 = .error .UnknownRequest) :=
  approve_consumes_request witnessReqStore "req-1" 0 "code-7" 60
    ⟨"xyz", "client-1", "https://app.example/cb",
     "E9Melhoa2OwvFrEMTJguCHaoeK1t8URWbuGJSstw-cM", "S256", "mcp"⟩ (by decide)

/-! ## Claim about expired credentials (spec §7, §8) -/

/-- A store with every code entry for a given code value removed — an
"entirely absent" code. -/
def removeCode (st : McpOAuthStore) (code : String) : McpOAuthStore :=
  { st with codes := st.codes.filter (fun c => c.code != code) }

/-- A store with every token entry for a given token value removed — an
"entirely absent" token. -/
def removeToken (st : McpOAuthStore) (tokv : String) : McpOAuthStore :=
  { st with tokens := st.tokens.filter (fun t => t.token != tokv) }

/-- C5: a code or token past its `expires_at` is never exchanged or
admitted, and the observable outcome is identical to the outcome for an
entirely absent credential — the token endpoint answers `InvalidGrant`
and the gate answers `Unauthorized`, the same shapes it answers for a
credential that never existed or is absent altogether. -/
theorem expired_indistinguishable_from_absent (st : McpOAuthStore) (code tokv : String)
    (ac : AuthorizationCode) (tok : AccessToken) (now : Nat)
    (hc : lookupCode st code = some ac) (hce : ac.expires_at ≤ now)
    (ht : lookupToken st tokv = some tok) (hte : tok.expires_at ≤ now) :
    (∀ (cid : String) (cs : Option String) (ruri verifier newTok : String) (lifetime : Nat),
      exchange st cid cs code ruri verifier now newTok lifetime = .error .InvalidGrant ∧
      exchange st cid cs code ruri verifier now newTok lifetime =
        exchange (removeCode st code) cid cs code ruri verifier now newTok lifetime) ∧
    (validateToken st (some tokv) now = .unauthorized ∧
     validateToken st (some tokv) now = validateToken (removeToken st tokv) (some tokv) now ∧
     validateToken st (some tokv) now = validateToken st none now) := by
  have habs : ∀ (cid : String) (cs : Option String) (ruri verifier newTok : String)
      (lifetime : Nat),
      exchange (removeCode st code) cid cs code ruri verifier now newTok lifetime =
        .error .InvalidGrant := by
    intro cid cs ruri verifier newTok lifetime
    have hnone : lookupCode (removeCode st code) code = none := by
      unfold lookupCode removeCode
      dsimp only
      rw [find?_filter_code_none]
    unfold exchange
    rw [hnone]
  have hexp : ∀ (cid : String) (cs : Option String) (ruri verifier newTok : String)
      (lifetime : Nat),
      exchange st cid cs code ruri verifier now newTok lifetime = .error .InvalidGrant := by
    intro cid cs ruri verifier newTok lifetime
    unfold exchange
    rw [hc]
    dsimp only
    have h1 : (ac.consumed || decide (ac.expires_at ≤ now)) = true := by
      simp [hce]
    rw [if_pos h1]
  have htok : validateToken st (some tokv) now = .unauthorized := by
    unfold validateToken
    dsimp only
    rw [ht]
    dsimp only
    rw [if_pos hte]
  have htok2 : validateToken (removeToken st tokv) (some tokv) now = .unauthorized := by
    have hnone : lookupToken (removeToken st tokv) tokv = none := by
      unfold lookupToken removeToken
      dsimp only
      rw [find?_filter_token_none]
    unfold validateToken
    dsimp only
    rw [hnone]
  exact ⟨fun cid cs ruri verifier newTok lifetime =>
      ⟨hexp cid cs ruri verifier newTok lifetime,
       (hexp cid cs ruri verifier newTok lifetime).trans
         (habs cid cs ruri verifier newTok lifetime).symm⟩,
    htok, htok.trans htok2.symm,
    htok.trans (rfl : GateDecision.unauthorized = validateToken st none now)⟩

/-- A store holding one expired authorization code and one expired access
token. -/
def witnessExpiredStore : McpOAuthStore :=
  ⟨[⟨"client-1", none, ["https://app.example/cb"]⟩], [],
   [⟨"code-9", "client-1", "https://app.example/cb",
     "E9Melhoa2OwvFrEMTJguCHaoeK1t8URWbuGJSstw-cM", "S256", "mcp", 5, false⟩],
   [⟨"tok-9", "client-1", "mcp", 5⟩]⟩

/-- C5 witness: the expired code `code-9` and expired token `tok-9` at
time 10 behave exactly like absent ones. -/
theorem expired_indistinguishable_witness :
    (∀ (cid : String) (cs : Option String) (ruri verifier newTok : String) (lifetime : Nat),
      exchange witnessExpiredStore cid cs "code-9" ruri verifier 10 newTok lifetime =
        .error .InvalidGrant ∧
      exchange witnessExpiredStore cid cs "code-9" ruri verifier 10 newTok lifetime =
        exchange (removeCode witnessExpiredStore "code-9") cid cs "code-9" ruri verifier 10
          newTok lifetime) ∧
    (validateToken witnessExpiredStore (some "tok-9") 10 = .unauthorized ∧
     validateToken witnessExpiredStore (some "tok-9") 10 =
       validateToken (removeToken witnessExpiredStore "tok-9") (some "tok-9") 10 ∧
     validateToken witnessExpiredStore (some "tok-9") 10 =
       validateToken witnessExpiredStore none 10) :=
  expired_indistinguishable_from_absent witnessExpiredStore "code-9" "tok-9"
    ⟨"code-9", "client-1", "https://app.example/cb",
     "E9Melhoa2OwvFrEMTJguCHaoeK1t8URWbuGJSstw-cM", "S256", "mcp", 5, false⟩
    ⟨"tok-9", "client-1", "mcp", 5⟩ 10 (by decide) (by decide) (by decide) (by decide)

end McpBash
